import Mathlib

/-!
Verification of the PowerController relay daemon and client
(`src/mcp-daemon.py`, `src/irrigation-controller.py`) against the
natural-language specification.

The daemon owns an MCP23017 I/O expander whose pins drive relays.  We
embed the hardware as a pin-state function `Nat → Bool` together with a
fault schedule saying which invocation of which pin operation raises an
exception.  Each Python function the claims mention is translated into a
Lean function over that state; exceptions are `Except String`.
-/

namespace PowerController

/-- A single pin operation on the MCP23017, as issued by the daemon.
Each hardware touch is one of these; the trace of a dispatch records
every issued operation, whether it succeeded or raised. -/
inductive PinOp
  | read (pin : Nat)
  | write (pin : Nat) (v : Bool)
  deriving DecidableEq, Repr

/-- A fault schedule: `flt op k = true` means the k-th invocation
(0-based) of the operation `op` raises an exception on the bus. -/
def Fault : Type := PinOp → Nat → Bool

/-- The fault-free schedule: no bus operation ever raises. -/
def noFault : Fault := fun _ _ => false

/-- Hardware pin state: the boolean held by each pin number. -/
def HWState : Type := Nat → Bool

/-- Source `relay_dict` of mcp-daemon.py: relay-name to (index, pin-number),
in dict insertion order. -/
def relay_dict : List (String × Nat × Nat) :=
  [ ("farbed",  (0, 10)),
    ("nearbed", (1, 6)),
    ("mag",     (2, 9)),
    ("plants",  (3, 7)),
    ("valve5",  (4, 8)),
    ("pump1",   (5, 5)),
    ("pump2",   (6, 11)) ]

/-- Lookup of `relay_dict[name]`: `some (index, pin)` when the name is a
key, `none` otherwise (Python would raise KeyError). -/
def lookupRelay (name : String) : Option (Nat × Nat) :=
  (relay_dict.find? (fun e => e.1 = name)).map (fun e => e.2)

/-- Source `translate_state`: render a pin boolean as "on" or "off". -/
def translate_state (state : Bool) : String :=
  if state then "on" else "off"

/-- One attempted bus write of `v` to `pin` on invocation `k`, on state `s`:
raises when the fault schedule says so, otherwise updates the pin.
This is the embedding of the Python lambda given to `retry`,
for example the lambda setting pin value True. -/
def hwWrite (flt : Fault) (s : HWState) (pin : Nat) (v : Bool) (k : Nat) :
    Except String HWState :=
  if flt (.write pin v) k then .error ("Remote I/O error pin " ++ toString pin)
  else .ok (Function.update s pin v)

/-- One attempted bus read of `pin` on invocation `k`, on state `s`:
raises when the fault schedule says so, otherwise returns the pin value.
This is the embedding of reading the pin value attribute. -/
def hwRead (flt : Fault) (s : HWState) (pin : Nat) (k : Nat) :
    Except String Bool :=
  if flt (.read pin) k then .error ("Remote I/O error pin " ++ toString pin)
  else .ok (s pin)

/-- A log record emitted by `retry` via `log_message_json`: the message
dict carries the description string, the 1-based attempt number, plus the
level and severity arguments.  (The timestamp is real time and is not
modelled.) -/
structure LogEntry where
  description : String
  attempt : Nat
  level : Nat
  severity : String
  deriving DecidableEq, Repr

/-- Outcome of running the source `retry` wrapper: the final result
(`.ok none` models the Python fall-through `return None` that happens
only when `attempts = 0`), the number of invocations of the operation,
the sleep durations performed between attempts, and the log records. -/
structure RetryRun (α : Type) where
  result : Except String (Option α)
  calls : Nat
  sleeps : List ℚ
  logs : List LogEntry
  deriving Repr

/-- Loop body of source `retry`, at current 0-based `attempt`, with
`remaining` iterations of `for attempt in range(attempts)` left.  Each
iteration logs the attempt at level 3, invokes the operation, returns on
success; on exception it logs at level 1 and sleeps `delay` when more
attempts remain, else re-raises the final exception. -/
def retryGo (op : Nat → Except String α) (description : String) (delay : ℚ) :
    Nat → Nat → RetryRun α
  | _, 0 => ⟨.ok none, 0, [], []⟩
  | attempt, remaining + 1 =>
    let aLog : LogEntry := ⟨description, attempt + 1, 3, "info"⟩
    match op attempt with
    | .ok a => ⟨.ok (some a), 1, [], [aLog]⟩
    | .error e =>
      if remaining = 0 then
        ⟨.error e, 1, [], [aLog]⟩
      else
        let eLog : LogEntry := ⟨description, attempt + 1, 1, "exception"⟩
        let rest := retryGo op description delay (attempt + 1) remaining
        ⟨rest.result, rest.calls + 1, delay :: rest.sleeps, aLog :: eLog :: rest.logs⟩

/-- Source `retry` with explicit attempt budget and delay
(the Python signature defaults these to `attempts=3, delay=0.1`). -/
def retryWith (op : Nat → Except String α) (description : String)
    (attempts : Nat) (delay : ℚ) : RetryRun α :=
  retryGo op description delay 0 attempts

/-- Source `retry` as used by every call site in mcp-daemon.py: all call
sites leave the defaults `attempts=3, delay=0.1` in place. -/
def retry (op : Nat → Except String α) (description : String) : RetryRun α :=
  retryWith op description 3 (1/10)

/-- Result of a dispatched hardware operation: the pin state after all
mutations that happened (also on the exception path, where earlier
writes persist), the trace of every pin operation issued, and the value
returned or the exception raised. -/
structure HWRun (α : Type) where
  state : HWState
  trace : List PinOp
  result : Except String α

/-- A pin write wrapped in the source `retry` (the call
`retry(lambda: setattr(pin, value, b), description)`).  The returned
state is the state after the first successful attempt, or the unchanged
input state when every attempt raised (a failed bus write mutates
nothing); the trace records one write operation per invocation. -/
def retryWrite (flt : Fault) (s : HWState) (pin : Nat) (v : Bool)
    (description : String) : HWRun Unit :=
  let r := retry (hwWrite flt s pin v) description
  { state := match r.result with
      | .ok (some s1) => s1
      | .ok none => s
      | .error _ => s,
    trace := List.replicate r.calls (.write pin v),
    result := match r.result with
      | .ok _ => .ok ()
      | .error e => .error e }

/-- Single-relay result dict: the relay name and rendered status. -/
structure SingleResult where
  relay : String
  status : String
  deriving DecidableEq, Repr

/-- Source `perform_action_on_relay`.  Looks the relay up in
`relay_dict` (KeyError if absent); for action "on"/"off" issues the pin
write through `retry`; for "status" — and any other action string, which
falls through every branch — no write.  Then reads the pin value back
directly, NOT through `retry`, and returns the result dict.  An
exception from the exhausted retry or from the read propagates. -/
def perform_action_on_relay (flt : Fault) (s : HWState)
    (relay_name : String) (action : Option String) : HWRun SingleResult :=
  match lookupRelay relay_name with
  | none => ⟨s, [], .error ("KeyError: " ++ relay_name)⟩
  | some (_index, pin) =>
    let wr : HWRun Unit :=
      if action = some "on" then
        retryWrite flt s pin true ("set_pin " ++ relay_name ++ " True")
      else if action = some "off" then
        retryWrite flt s pin false ("set_pin " ++ relay_name ++ " False")
      else
        ⟨s, [], .ok ()⟩
    match wr.result with
    | .error e => ⟨wr.state, wr.trace, .error e⟩
    | .ok _ =>
      match hwRead flt wr.state pin 0 with
      | .error e => ⟨wr.state, wr.trace ++ [.read pin], .error e⟩
      | .ok b =>
        ⟨wr.state, wr.trace ++ [.read pin],
          .ok ⟨relay_name, translate_state b⟩⟩

/-- Loop body of source `perform_all_action` over the remaining
`relay_dict.items()`: for action "off" issue the retried write, then
read the pin value directly (not through `retry`) into the result dict;
any exception propagates, keeping the writes already performed. -/
def performAllGo (flt : Fault) (action : Option String) :
    List (String × Nat × Nat) → HWState → HWRun (List (String × String))
  | [], s => ⟨s, [], .ok []⟩
  | (relay_name, _index, pin) :: rest, s =>
    let wr : HWRun Unit :=
      if action = some "off" then
        retryWrite flt s pin false ("set_pin " ++ relay_name ++ " False")
      else
        ⟨s, [], .ok ()⟩
    match wr.result with
    | .error e => ⟨wr.state, wr.trace, .error e⟩
    | .ok _ =>
      match hwRead flt wr.state pin 0 with
      | .error e => ⟨wr.state, wr.trace ++ [.read pin], .error e⟩
      | .ok b =>
        let r := performAllGo flt action rest wr.state
        ⟨r.state, wr.trace ++ [.read pin] ++ r.trace,
          match r.result with
          | .ok tail => .ok ((relay_name, translate_state b) :: tail)
          | .error e => .error e⟩

/-- Source `perform_all_action`: iterate `relay_dict.items()` in
insertion order. -/
def perform_all_action (flt : Fault) (s : HWState) (action : Option String) :
    HWRun (List (String × String)) :=
  performAllGo flt action relay_dict s

/-- A response the daemon serializes back to the client: the
single-relay dict, the all-relays mapping, or an error dict. -/
inductive DResponse
  | single (relay : String) (status : String)
  | multi (entries : List (String × String))
  | error (msg : String)
  deriving DecidableEq, Repr

/-- What one accepted connection delivers, after transport and JSON
decoding: `malformed` covers a payload on which `json.loads` (or the
subsequent attribute access on a non-dict value) raises, carrying the
exception text; `dict` carries the results of `request.get("relay")`
and `request.get("action")`, `none` when the key is absent. -/
inductive Payload
  | malformed (e : String)
  | dict (relay : Option String) (action : Option String)
  deriving DecidableEq, Repr

/-- Request handling inside the accept loop of source `main`
(lines 347-373): decode, branch on `relay == "all"`, then
`relay in relay_dict`, else the invalid-name error; every exception
raised inside the `try` becomes an error response.  Returns the new pin
state, the trace of hardware operations issued, and the response sent. -/
def handleRequest (flt : Fault) (s : HWState) (p : Payload) :
    HWState × List PinOp × DResponse :=
  match p with
  | .malformed e => (s, [], .error e)
  | .dict relay action =>
    if relay = some "all" then
      let r := perform_all_action flt s action
      (r.state, r.trace,
        match r.result with
        | .ok entries => .multi entries
        | .error e => .error e)
    else
      match relay with
      | some rn =>
        if (lookupRelay rn).isSome then
          let r := perform_action_on_relay flt s rn action
          (r.state, r.trace,
            match r.result with
            | .ok sr => .single sr.relay sr.status
            | .error e => .error e)
        else
          (s, [], .error "Invalid relay name")
      | none => (s, [], .error "Invalid relay name")

/-- One accepted connection as the daemon sees it: either
`conn.recv(1024)` returned zero bytes (peer closed without sending), or
it delivered data that decodes to the given payload, with the given
fault schedule in force for this request. -/
inductive ConnEvent
  | empty
  | data (flt : Fault) (p : Payload)

/-- What the daemon did with one connection: sent no response at all
(the `if not data: continue` path) or sent exactly one response. -/
inductive ConnOutcome
  | noResponse
  | responded (r : DResponse)

/-- One iteration of the accept loop of source `main`: an empty recv
skips straight to the next accept without touching hardware or sending
anything; otherwise the request is handled and its response sent. -/
def handleConnection (s : HWState) (ev : ConnEvent) :
    HWState × List PinOp × ConnOutcome :=
  match ev with
  | .empty => (s, [], .noResponse)
  | .data flt p =>
    let (s1, tr, resp) := handleRequest flt s p
    (s1, tr, .responded resp)

/-- The accept loop of source `main` over a finite schedule of
connections: the `while True` with its catch-all `except` never leaves
the loop, so every connection in the schedule is processed. -/
def daemonRun (s : HWState) : List ConnEvent → HWState × List ConnOutcome
  | [] => (s, [])
  | ev :: rest =>
    let (s1, _, out) := handleConnection s ev
    let (s2, outs) := daemonRun s1 rest
    (s2, out :: outs)

/-- How the connect/send/receive sequence of irrigation-controller.py
went: `success` carries the decoded response that was printed,
`failure` the text of the exception raised anywhere inside the `try`
(daemon not running, connection refused, truncated or undecodable
response). -/
inductive Transport
  | success (response : String)
  | failure (e : String)
  deriving DecidableEq, Repr

/-- Observable steps of one run of the client main block, in order. -/
inductive ClientEvent
  | lockAcquire
  | lockRelease
  | transportAttempt
  | printResponse (r : String)
  | printError (e : String)
  deriving DecidableEq, Repr

/-- Body of the `with MCPAtomicAccess()` block of the client
(lines 220-231): the whole connect/send/receive/print sequence runs
inside a `try` whose `except` catches every exception and prints the
error dict, so the body itself never raises. -/
def clientBody (t : Transport) : List ClientEvent :=
  match t with
  | .success r => [.transportAttempt, .printResponse r]
  | .failure e => [.transportAttempt, .printError e]

/-- The client main block: `with MCPAtomicAccess()` acquires the
exclusive flock in `__enter__` before the body runs and releases it in
`__exit__` on every way out of the body; the script then falls off the
end, so the process exit status is 0 on both transport outcomes. -/
def clientMain (t : Transport) : List ClientEvent × Nat :=
  (ClientEvent.lockAcquire :: clientBody t ++ [ClientEvent.lockRelease], 0)

/-- Is this pin operation a write? -/
def PinOp.isWrite : PinOp → Bool
  | .read _ => false
  | .write _ _ => true

/-- Is this response the error dict? -/
def DResponse.isError : DResponse → Bool
  | .error _ => true
  | _ => false

/-- Concrete hardware state with every pin low, used as a test state. -/
def allOff : HWState := fun _ => false

/-- Fault schedule of the transient-read-fault experiment: every bus
read raises on its first two invocations and succeeds on the third;
writes never raise. -/
def readFault : Fault := fun op k =>
  match op with
  | .read _ => decide (k < 2)
  | .write _ _ => false

/-- Fault schedule of the transient-write-fault experiment: every bus
write raises on its first two invocations and succeeds on the third;
reads never raise. -/
def writeFault : Fault := fun op k =>
  match op with
  | .read _ => false
  | .write _ _ => decide (k < 2)

/-- Concrete hardware state with every pin high, used as a test state. -/
def allOn : HWState := fun _ => true

/-- A concrete fallible operation for exercising `retry`: raises on its
first two invocations, then returns 7. -/
def boomTwice : Nat → Except String Nat :=
  fun k => if k < 2 then .error "boom" else .ok 7

/-- The daemon accept loop produces exactly one outcome per scheduled
connection: no connection makes it exit the `while True`. -/
theorem daemonRun_length (s : HWState) (evs : List ConnEvent) :
    (daemonRun s evs).2.length = evs.length := by
  induction evs generalizing s with
  | nil => rfl
  | cons ev rest ih => simp [daemonRun, ih]

/-- For any action other than "off" (which includes "on"), the bulk
loop never takes its write branch: the pin state is returned unchanged
and the trace holds no write operation. -/
theorem performAllGo_no_off (flt : Fault) (action : Option String)
    (h : action ≠ some "off") (l : List (String × Nat × Nat)) (s : HWState) :
    (performAllGo flt action l s).state = s ∧
    ((performAllGo flt action l s).trace.all fun op => !op.isWrite) = true := by
  induction l generalizing s with
  | nil => exact ⟨rfl, rfl⟩
  | cons e rest ih =>
    obtain ⟨name, idx, pin⟩ := e
    simp only [performAllGo, if_neg h]
    cases hr : hwRead flt s pin 0 with
    | error e => simp [hr, PinOp.isWrite]
    | ok b =>
      have h1 := (ih s).1
      have h2 := (ih s).2
      simp only [List.all_eq_true, Bool.not_eq_true'] at h2 ⊢
      simp [hr, PinOp.isWrite, h1]
      intro x hx
      simpa [PinOp.isWrite] using h2 x hx

/-- For any action other than "off", on fault-free hardware the bulk
loop returns one entry per relay of the remaining list, in order, each
rendering the pin value currently held. -/
theorem performAllGo_no_off_result (flt : Fault) (action : Option String)
    (h : action ≠ some "off") (hflt : ∀ p k, flt (.read p) k = false)
    (l : List (String × Nat × Nat)) (s : HWState) :
    (performAllGo flt action l s).result =
      .ok (l.map fun e => (e.1, translate_state (s e.2.2))) := by
  induction l generalizing s with
  | nil => rfl
  | cons e rest ih =>
    obtain ⟨name, idx, pin⟩ := e
    simp only [performAllGo, if_neg h]
    simp [hwRead, hflt, ih s]

-- ---------------------------------------------------------------------
-- Claim theorems
-- ---------------------------------------------------------------------

/-- C1 counterexample: at the concrete request relay "all", action "on"
(all pins low, fault-free bus) the daemon does NOT return an error
response — it answers with the full status mapping, refuting the claim
that `all`+`on` yields an error response. -/
theorem C1_counterexample :
    (handleRequest noFault allOff (.dict (some "all") (some "on"))).2.2.isError
      = false ∧
    (handleRequest noFault allOff (.dict (some "all") (some "on"))).2.2 =
      .multi [("farbed", "off"), ("nearbed", "off"), ("mag", "off"),
              ("plants", "off"), ("valve5", "off"), ("pump1", "off"),
              ("pump2", "off")] :=
  ⟨rfl, rfl⟩

/-- C1 amended: a request with relay "all" and action "on" performs
zero hardware pin writes and leaves every pin unchanged under any fault
schedule, but it is not rejected: it is handled like a bulk status
request, and on a fault-free bus the response is the full per-relay
status mapping rather than an error. -/
theorem C1_all_on_not_rejected (flt : Fault) (s : HWState) :
    (handleRequest flt s (.dict (some "all") (some "on"))).1 = s ∧
    ((handleRequest flt s (.dict (some "all") (some "on"))).2.1.all
        fun op => !op.isWrite) = true ∧
    (handleRequest noFault s (.dict (some "all") (some "on"))).2.2 =
      .multi (relay_dict.map fun e => (e.1, translate_state (s e.2.2))) := by
  have hne : (some "on" : Option String) ≠ some "off" := by decide
  refine ⟨?_, ?_, ?_⟩
  · simpa [handleRequest, perform_all_action] using
      (performAllGo_no_off flt _ hne relay_dict s).1
  · simpa [handleRequest, perform_all_action] using
      (performAllGo_no_off flt _ hne relay_dict s).2
  · have hr := performAllGo_no_off_result noFault _ hne
      (fun _ _ => rfl) relay_dict s
    simp [handleRequest, perform_all_action, hr]

/-- C3 counterexample: at the concrete transport failure "Connection
refused", the client prints the structured error payload but the process
exit status is 0 — not non-zero as the claim states. -/
theorem C3_counterexample :
    (clientMain (.failure "Connection refused")).2 = 0 ∧
    ClientEvent.printError "Connection refused" ∈
      (clientMain (.failure "Connection refused")).1 := by
  constructor
  · rfl
  · simp [clientMain, clientBody]

/-- C3 amended: on every transport failure the client prints the
structured error payload, but the `except` clause swallows the exception
and the script falls off the end, so the process exits with status 0. -/
theorem C3_transport_failure_exit_zero (e : String) :
    clientMain (.failure e) =
      ([.lockAcquire, .transportAttempt, .printError e, .lockRelease], 0) := by
  rfl

/-- C9: the client lock is acquired before the connect/send/receive
sequence and released as the last step on every exit path of that
sequence — both when the exchange succeeds and when it raises. -/
theorem C9_lock_scoped (t : Transport) :
    (clientMain t).1 =
      ClientEvent.lockAcquire :: clientBody t ++ [ClientEvent.lockRelease] ∧
    ClientEvent.transportAttempt ∈ clientBody t ∧
    (clientMain t).1.head? = some .lockAcquire ∧
    (clientMain t).1.getLast? = some .lockRelease := by
  cases t <;> simp [clientMain, clientBody]

/-- C10: a connection that delivers zero bytes produces no response at
all, touches no hardware, leaves the pin state unchanged, and the
daemon goes on to process the remaining connections unchanged. -/
theorem C10_empty_recv (s : HWState) (rest : List ConnEvent) :
    handleConnection s .empty = (s, [], .noResponse) ∧
    daemonRun s (ConnEvent.empty :: rest) =
      ((daemonRun s rest).1, .noResponse :: (daemonRun s rest).2) := by
  constructor
  · rfl
  · simp [daemonRun, handleConnection]

/-- C2 counterexample: at the concrete request relay "farbed" with the
invalid action "zap" the daemon does not reject before hardware access —
it reads pin 10 — and answers with a status dict, not an error, refuting
the "including on a known single relay" part of the claim. -/
theorem C2_counterexample :
    (handleRequest noFault allOff (.dict (some "farbed") (some "zap"))).2.1 =
      [.read 10] ∧
    (handleRequest noFault allOff (.dict (some "farbed") (some "zap"))).2.2 =
      .single "farbed" "off" :=
  ⟨rfl, rfl⟩

/-- C2 amended: a payload that does not decode, an unknown relay name,
and a missing relay field are each rejected before any hardware access
and answered with an error response, and the daemon processes every
scheduled connection (keeps running); but an action outside the three
values on a known single relay is NOT rejected: the relay falls through
to the read, one hardware read is issued, and when that read succeeds
the daemon answers with the status dict of the relay. -/
theorem C2_protocol_errors :
    (∀ (flt : Fault) (s : HWState) (e : String),
      handleRequest flt s (.malformed e) = (s, [], .error e)) ∧
    (∀ (flt : Fault) (s : HWState) (rn : String) (action : Option String),
      rn ≠ "all" → lookupRelay rn = none →
      handleRequest flt s (.dict (some rn) action) =
        (s, [], .error "Invalid relay name")) ∧
    (∀ (flt : Fault) (s : HWState) (action : Option String),
      handleRequest flt s (.dict none action) =
        (s, [], .error "Invalid relay name")) ∧
    (∀ (flt : Fault) (s : HWState) (rn : String) (i p : Nat)
        (action : Option String),
      lookupRelay rn = some (i, p) →
      action ≠ some "on" → action ≠ some "off" →
      (perform_action_on_relay flt s rn action).state = s ∧
      (perform_action_on_relay flt s rn action).trace = [.read p] ∧
      (flt (.read p) 0 = false →
        (perform_action_on_relay flt s rn action).result =
          .ok ⟨rn, translate_state (s p)⟩)) ∧
    (∀ (s : HWState) (evs : List ConnEvent),
      (daemonRun s evs).2.length = evs.length) := by
  refine ⟨?_, ?_, ?_, ?_, daemonRun_length⟩
  · intro flt s e
    rfl
  · intro flt s rn action hne hnone
    simp [handleRequest, hnone, hne]
  · intro flt s action
    rfl
  · intro flt s rn i p action h hon hoff
    simp only [perform_action_on_relay, h, if_neg hon, if_neg hoff]
    refine ⟨?_, ?_, ?_⟩
    · cases hr : hwRead flt s p 0 <;> simp [hr]
    · cases hr : hwRead flt s p 0 <;> simp [hr]
    · intro hflt
      simp [hwRead, hflt]

/-- C2 witness: the amended theorem applied at the concrete protocol
errors — an undecodable payload, the unknown relay "valve99" — and at
the invalid action "zap" on the known relay "farbed". -/
theorem C2_witness :
    handleRequest noFault allOff (.malformed "Expecting value") =
      (allOff, [], .error "Expecting value") ∧
    handleRequest noFault allOff (.dict (some "valve99") (some "on")) =
      (allOff, [], .error "Invalid relay name") ∧
    (perform_action_on_relay noFault allOff "farbed" (some "zap")).trace =
      [.read 10] :=
  ⟨C2_protocol_errors.1 noFault allOff "Expecting value",
   C2_protocol_errors.2.1 noFault allOff "valve99" (some "on")
     (by decide) (by decide),
   (C2_protocol_errors.2.2.2.1 noFault allOff "farbed" 0 10 (some "zap")
     (by decide) (by decide) (by decide)).2.1⟩

/-- Under the transient write fault (raise on invocations 0 and 1,
succeed on invocation 2) a retried pin write still succeeds: the retry
budget of 3 attempts absorbs the two failures.  Three write operations
appear on the bus and the pin ends at the requested value. -/
theorem retryWrite_writeFault (s : HWState) (p : Nat) (v : Bool) (d : String) :
    retryWrite writeFault s p v d =
      ⟨Function.update s p v, List.replicate 3 (.write p v), .ok ()⟩ :=
  rfl

/-- C4 counterexample: with a fault schedule on which every bus read
raises on attempts 1 and 2 and would succeed on attempt 3, the concrete
command relay "farbed", action "status" produces an error response — the
read at the end of the dispatch is issued exactly once, outside the
retry wrapper, so the transient fault is not masked as the claim
requires. -/
theorem C4_counterexample :
    readFault (.read 10) 0 = true ∧
    readFault (.read 10) 1 = true ∧
    readFault (.read 10) 2 = false ∧
    (handleRequest readFault allOff (.dict (some "farbed") (some "status"))).2.1 =
      [.read 10] ∧
    (handleRequest readFault allOff (.dict (some "farbed") (some "status"))).2.2 =
      .error ("Remote I/O error pin " ++ toString 10) :=
  ⟨rfl, rfl, rfl, rfl, rfl⟩

/-- C4 amended: only the pin writes of a dispatch — the single-relay
write of perform_action_on_relay and each per-relay write of the bulk
all+off dispatch — are wrapped in the retry policy.  A transient fault
failing every write on attempts 1 and 2 but succeeding on attempt 3 is
masked in both dispatch paths: "on"/"off" on a known relay still answers
with the expected status after three write attempts on the bus, and
all+off still answers the full "off" mapping with three write attempts
plus one read per relay, every pin driven low.  The pin read-backs of
both dispatch paths are issued exactly once, outside the retry policy,
so the same transient fault on reads surfaces as an error response. -/
theorem C4_only_writes_retried :
    (∀ (s : HWState) (rn : String) (i p : Nat),
      lookupRelay rn = some (i, p) →
      (perform_action_on_relay writeFault s rn (some "on")).result =
        .ok ⟨rn, "on"⟩ ∧
      (perform_action_on_relay writeFault s rn (some "on")).state =
        Function.update s p true ∧
      (perform_action_on_relay writeFault s rn (some "on")).trace =
        [.write p true, .write p true, .write p true, .read p] ∧
      (perform_action_on_relay writeFault s rn (some "off")).result =
        .ok ⟨rn, "off"⟩ ∧
      (perform_action_on_relay readFault s rn (some "status")).result =
        .error ("Remote I/O error pin " ++ toString p) ∧
      (perform_action_on_relay readFault s rn (some "status")).trace =
        [.read p]) ∧
    (∀ s : HWState,
      (perform_all_action writeFault s (some "off")).result =
        .ok (relay_dict.map fun e => (e.1, "off")) ∧
      (perform_all_action writeFault s (some "off")).trace =
        relay_dict.flatMap (fun e =>
          [.write e.2.2 false, .write e.2.2 false, .write e.2.2 false,
           .read e.2.2]) ∧
      (∀ e ∈ relay_dict,
        (perform_all_action writeFault s (some "off")).state e.2.2 = false) ∧
      (perform_all_action readFault s (some "off")).result =
        .error ("Remote I/O error pin " ++ toString 10) ∧
      (perform_all_action readFault s (some "off")).trace =
        [.write 10 false, .read 10]) := by
  constructor
  · intro s rn i p h
    refine ⟨?_, ?_, ?_, ?_, ?_, ?_⟩ <;>
      simp [perform_action_on_relay, h, retryWrite_writeFault, hwRead,
        writeFault, readFault, translate_state, List.replicate]
  · intro s
    refine ⟨rfl, rfl, ?_, rfl, rfl⟩
    intro e he
    fin_cases he <;> rfl

/-- C4 witness: the amended theorem applied at the relay "farbed"
(pin 10) and at the bulk all+off dispatch, all pins initially low. -/
theorem C4_witness :
    lookupRelay "farbed" = some (0, 10) ∧
    (perform_action_on_relay writeFault allOff "farbed" (some "on")).result =
      .ok ⟨"farbed", "on"⟩ ∧
    (perform_action_on_relay readFault allOff "farbed" (some "status")).result =
      .error ("Remote I/O error pin " ++ toString 10) ∧
    (perform_all_action writeFault allOff (some "off")).result =
      .ok (relay_dict.map fun e => (e.1, "off")) ∧
    (perform_all_action readFault allOff (some "off")).result =
      .error ("Remote I/O error pin " ++ toString 10) :=
  ⟨by decide,
   (C4_only_writes_retried.1 allOff "farbed" 0 10 (by decide)).1,
   (C4_only_writes_retried.1 allOff "farbed" 0 10 (by decide)).2.2.2.2.1,
   (C4_only_writes_retried.2 allOff).1,
   (C4_only_writes_retried.2 allOff).2.2.2.1⟩

/-- Shape of a `retry` run whose operation succeeds on the first
invocation: one call, no sleeps, one attempt log. -/
theorem retry_ok0 (op : Nat → Except String α) (d : String) (a : α)
    (h0 : op 0 = .ok a) :
    retry op d = ⟨.ok (some a), 1, [], [⟨d, 1, 3, "info"⟩]⟩ := by
  simp [retry, retryWith, retryGo, h0]

/-- Shape of a `retry` run whose operation raises once then succeeds:
two calls, one sleep of the fixed delay. -/
theorem retry_ok1 (op : Nat → Except String α) (d : String) (e0 : String)
    (a : α) (h0 : op 0 = .error e0) (h1 : op 1 = .ok a) :
    retry op d = ⟨.ok (some a), 2, [1/10],
      [⟨d, 1, 3, "info"⟩, ⟨d, 1, 1, "exception"⟩, ⟨d, 2, 3, "info"⟩]⟩ := by
  simp [retry, retryWith, retryGo, h0, h1]

/-- Shape of a `retry` run whose operation raises twice then succeeds on
the final attempt: three calls, two sleeps of the fixed delay. -/
theorem retry_ok2 (op : Nat → Except String α) (d : String)
    (e0 e1 : String) (a : α) (h0 : op 0 = .error e0)
    (h1 : op 1 = .error e1) (h2 : op 2 = .ok a) :
    retry op d = ⟨.ok (some a), 3, [1/10, 1/10],
      [⟨d, 1, 3, "info"⟩, ⟨d, 1, 1, "exception"⟩, ⟨d, 2, 3, "info"⟩,
       ⟨d, 2, 1, "exception"⟩, ⟨d, 3, 3, "info"⟩]⟩ := by
  simp [retry, retryWith, retryGo, h0, h1, h2]

/-- Shape of a `retry` run whose operation raises on all three
attempts: three calls, two sleeps, and the final exception is
re-raised. -/
theorem retry_err (op : Nat → Except String α) (d : String)
    (e0 e1 e2 : String) (h0 : op 0 = .error e0) (h1 : op 1 = .error e1)
    (h2 : op 2 = .error e2) :
    retry op d = ⟨.error e2, 3, [1/10, 1/10],
      [⟨d, 1, 3, "info"⟩, ⟨d, 1, 1, "exception"⟩, ⟨d, 2, 3, "info"⟩,
       ⟨d, 2, 1, "exception"⟩, ⟨d, 3, 3, "info"⟩]⟩ := by
  simp [retry, retryWith, retryGo, h0, h1, h2]

/-- C5: for every operation and every failure trace, `retry` (at the
attempt budget 3 and delay 0.1 used by all call sites) invokes the
operation at most 3 times; the sleeps between attempts all equal the
fixed delay; a successful run returns the value of the first successful
invocation, having called the operation exactly up to that invocation;
when all three attempts raise, the final exception is propagated; and
every log record the wrapper emits is tagged with the description. -/
theorem C5_retry_policy (α : Type) (op : Nat → Except String α) (d : String) :
    (retry op d).calls ≤ 3 ∧
    (retry op d).sleeps =
      List.replicate ((retry op d).calls - 1) (1/10 : ℚ) ∧
    (∀ a : α, (retry op d).result = .ok (some a) →
      ∃ k, k < 3 ∧ op k = .ok a ∧ (retry op d).calls = k + 1 ∧
        ∀ j, j < k → ∃ e, op j = .error e) ∧
    (∀ e0 e1 e2 : String, op 0 = .error e0 → op 1 = .error e1 →
      op 2 = .error e2 →
      (retry op d).result = .error e2 ∧ (retry op d).calls = 3) ∧
    (∀ l ∈ (retry op d).logs, l.description = d) := by
  cases h0 : op 0 with
  | ok a0 =>
    rw [retry_ok0 op d a0 h0]
    refine ⟨by norm_num, rfl, ?_, ?_, ?_⟩
    · intro a ha
      simp only [Except.ok.injEq, Option.some.injEq] at ha
      exact ⟨0, by norm_num, by rw [h0, ha], rfl,
        fun j hj => absurd hj (Nat.not_lt_zero j)⟩
    · intro f0 f1 f2 k0 k1 k2
      exact absurd k0 (by simp)
    · intro l hl
      fin_cases hl
      rfl
  | error e0 =>
    cases h1 : op 1 with
    | ok a1 =>
      rw [retry_ok1 op d e0 a1 h0 h1]
      refine ⟨by norm_num, rfl, ?_, ?_, ?_⟩
      · intro a ha
        simp only [Except.ok.injEq, Option.some.injEq] at ha
        refine ⟨1, by norm_num, by rw [h1, ha], rfl, ?_⟩
        intro j hj
        interval_cases j
        exact ⟨e0, h0⟩
      · intro f0 f1 f2 k0 k1 k2
        exact absurd k1 (by simp)
      · intro l hl
        fin_cases hl <;> rfl
    | error e1 =>
      cases h2 : op 2 with
      | ok a2 =>
        rw [retry_ok2 op d e0 e1 a2 h0 h1 h2]
        refine ⟨by norm_num, rfl, ?_, ?_, ?_⟩
        · intro a ha
          simp only [Except.ok.injEq, Option.some.injEq] at ha
          refine ⟨2, by norm_num, by rw [h2, ha], rfl, ?_⟩
          intro j hj
          interval_cases j
          · exact ⟨e0, h0⟩
          · exact ⟨e1, h1⟩
        · intro f0 f1 f2 k0 k1 k2
          exact absurd k2 (by simp)
        · intro l hl
          fin_cases hl <;> rfl
      | error e2 =>
        rw [retry_err op d e0 e1 e2 h0 h1 h2]
        refine ⟨by norm_num, rfl, ?_, ?_, ?_⟩
        · intro a ha
          exact absurd ha (by simp)
        · intro f0 f1 f2 k0 k1 k2
          simp only [Except.error.injEq] at k2
          exact ⟨by rw [k2], rfl⟩
        · intro l hl
          fin_cases hl <;> rfl

/-- C5 witness: the policy theorem applied to the concrete operation
that raises twice and then returns 7, with the description used by the
I2C initialization call site. -/
theorem C5_witness :
    (retry boomTwice "initialize_i2c").calls ≤ 3 ∧
    (retry boomTwice "initialize_i2c").sleeps =
      List.replicate ((retry boomTwice "initialize_i2c").calls - 1)
        (1/10 : ℚ) :=
  ⟨(C5_retry_policy Nat boomTwice "initialize_i2c").1,
   (C5_retry_policy Nat boomTwice "initialize_i2c").2.1⟩

/-- C6: for every hardware state, the request relay "all", action "off"
(on a fault-free bus) drives the pin of every configured relay to false,
issues exactly one retried write followed by one read per relay in
registry order, and answers with a mapping holding exactly one entry per
registered relay name, each rendering the value read after the write —
"off" throughout. -/
theorem C6_all_off (s : HWState) :
    (∀ e ∈ relay_dict,
      (handleRequest noFault s (.dict (some "all") (some "off"))).1 e.2.2
        = false) ∧
    (handleRequest noFault s (.dict (some "all") (some "off"))).2.1 =
      relay_dict.flatMap (fun e => [.write e.2.2 false, .read e.2.2]) ∧
    (handleRequest noFault s (.dict (some "all") (some "off"))).2.2 =
      .multi (relay_dict.map fun e => (e.1, "off")) := by
  refine ⟨?_, rfl, rfl⟩
  intro e he
  fin_cases he <;> rfl

/-- C6 witness: the theorem applied with every pin initially high —
the bulk off request pulls pin 10 low and reports every relay off. -/
theorem C6_witness :
    (handleRequest noFault allOn (.dict (some "all") (some "off"))).1 10
      = false ∧
    (handleRequest noFault allOn (.dict (some "all") (some "off"))).2.2 =
      .multi (relay_dict.map fun e => (e.1, "off")) :=
  ⟨(C6_all_off allOn).1 ("farbed", (0, 10)) (by decide),
   (C6_all_off allOn).2.2⟩

/-- C7: for every known relay, action "on" writes true to its pin (one
retried write, one direct read in the trace), and the reported status is
the rendering of the value read from the post-write state — hence "on"
followed by "status" answers "on", and "off" followed by "status"
answers "off". -/
theorem C7_read_after_write (s : HWState) (rn : String) (i p : Nat)
    (h : lookupRelay rn = some (i, p)) :
    (perform_action_on_relay noFault s rn (some "on")).state =
      Function.update s p true ∧
    (perform_action_on_relay noFault s rn (some "on")).trace =
      [.write p true, .read p] ∧
    (perform_action_on_relay noFault s rn (some "on")).result =
      .ok ⟨rn, translate_state (Function.update s p true p)⟩ ∧
    (perform_action_on_relay noFault
        (perform_action_on_relay noFault s rn (some "on")).state
        rn (some "status")).result = .ok ⟨rn, "on"⟩ ∧
    (perform_action_on_relay noFault
        (perform_action_on_relay noFault s rn (some "off")).state
        rn (some "status")).result = .ok ⟨rn, "off"⟩ := by
  have hw : ∀ (t : HWState) (v : Bool) (d : String),
      retryWrite noFault t p v d =
        ⟨Function.update t p v, [.write p v], .ok ()⟩ :=
    fun t v d => rfl
  refine ⟨?_, ?_, ?_, ?_, ?_⟩ <;>
    simp [perform_action_on_relay, h, hw, hwRead, noFault, translate_state]

/-- C7 witness: the theorem applied at relay "mag" (pin 9) with all
pins initially low. -/
theorem C7_witness :
    lookupRelay "mag" = some (2, 9) ∧
    (perform_action_on_relay noFault
        (perform_action_on_relay noFault allOff "mag" (some "on")).state
        "mag" (some "status")).result = .ok ⟨"mag", "on"⟩ :=
  ⟨by decide, (C7_read_after_write allOff "mag" 2 9 (by decide)).2.2.2.1⟩

/-- A hit in `lookupRelay` is a genuine entry of `relay_dict`. -/
theorem lookupRelay_mem (r : String) (i p : Nat)
    (h : lookupRelay r = some (i, p)) : (r, (i, p)) ∈ relay_dict := by
  unfold lookupRelay at h
  rcases he : relay_dict.find? (fun e => e.1 = r) with _ | e
  · rw [he] at h
    exact absurd h (by simp)
  · have hm := List.mem_of_find?_eq_some he
    have hp := List.find?_some he
    rw [he] at h
    obtain ⟨n, i0, p0⟩ := e
    simp only [Option.map_some', Option.some.injEq, Prod.mk.injEq] at h
    obtain ⟨hi, hpp⟩ := h
    have hn : n = r := by simpa using hp
    rw [← hn, ← hi, ← hpp]
    exact hm

/-- Distinct relay names of the registry drive distinct pins. -/
theorem relay_pins_inj (e1 : String × Nat × Nat) (h1 : e1 ∈ relay_dict)
    (e2 : String × Nat × Nat) (h2 : e2 ∈ relay_dict)
    (hne : e1.1 ≠ e2.1) : e1.2.2 ≠ e2.2.2 := by
  fin_cases h1 <;> fin_cases h2 <;>
    first
    | exact absurd rfl hne
    | decide

/-- Two different known relay names resolve to different pins. -/
theorem lookupRelay_pin_ne (r r2 : String) (i p i2 p2 : Nat)
    (h : lookupRelay r = some (i, p)) (h2 : lookupRelay r2 = some (i2, p2))
    (hne : r ≠ r2) : p ≠ p2 :=
  relay_pins_inj (r, (i, p)) (lookupRelay_mem r i p h)
    (r2, (i2, p2)) (lookupRelay_mem r2 i2 p2 h2) hne

/-- C8: for configured relays r and r2 with r ≠ r2, dispatching "on" or
"off" (the action rendering of either boolean) for r leaves the pin of
r2 unchanged, and a subsequent "status" on r2 reports the status r2 had
before the command to r. -/
theorem C8_frame (s : HWState) (r r2 : String) (i p i2 p2 : Nat) (v : Bool)
    (h : lookupRelay r = some (i, p)) (h2 : lookupRelay r2 = some (i2, p2))
    (hne : r ≠ r2) :
    (perform_action_on_relay noFault s r (some (translate_state v))).state p2
      = s p2 ∧
    (perform_action_on_relay noFault
        (perform_action_on_relay noFault s r (some (translate_state v))).state
        r2 (some "status")).result = .ok ⟨r2, translate_state (s p2)⟩ := by
  have hpp : p2 ≠ p :=
    Ne.symm (lookupRelay_pin_ne r r2 i p i2 p2 h h2 hne)
  have hw : ∀ (t : HWState) (b : Bool) (d : String),
      retryWrite noFault t p b d =
        ⟨Function.update t p b, [.write p b], .ok ()⟩ :=
    fun t b d => rfl
  have hstate :
      (perform_action_on_relay noFault s r (some (translate_state v))).state
        = Function.update s p v := by
    cases v <;>
      simp [perform_action_on_relay, h, hw, translate_state, hwRead, noFault]
  refine ⟨?_, ?_⟩
  · rw [hstate]
    exact Function.update_noteq hpp v s
  · rw [hstate]
    simp [perform_action_on_relay, h2, hwRead, noFault,
      Function.update_noteq hpp]

/-- C8 witness: the theorem applied at r = "farbed" (pin 10) switched
on, r2 = "nearbed" (pin 6), all pins initially low. -/
theorem C8_witness :
    (perform_action_on_relay noFault allOff "farbed"
        (some (translate_state true))).state 6 = allOff 6 ∧
    (perform_action_on_relay noFault
        (perform_action_on_relay noFault allOff "farbed"
          (some (translate_state true))).state
        "nearbed" (some "status")).result =
      .ok ⟨"nearbed", translate_state (allOff 6)⟩ :=
  ⟨(C8_frame allOff "farbed" "nearbed" 0 10 1 6 true
      (by decide) (by decide) (by decide)).1,
   (C8_frame allOff "farbed" "nearbed" 0 10 1 6 true
      (by decide) (by decide) (by decide)).2⟩

end PowerController
